import Mathlib

/-!
Shallow embedding of `src/Python_implementation/MoDE.py`.

The Python module defines a class `MoDE` whose methods `fit_transform`,
`incidence_matrix` and `proj_l_u` compute a 2-D embedding from a feature
matrix, a score vector and a pair of upper/lower pairwise-distance
matrices.  Caller-supplied numbers are modelled as rationals (every IEEE
float value is a rational number), while derived quantities involving
square roots and inverse cosines (point norms, correlation bounds,
angles, the gradient-descent state) live in `ℝ`.  Fallible steps return
`Except String`, with error strings matching the exceptions raised by the
source (or, where noted, by the numpy/scipy/sklearn library calls the
source makes).
-/

namespace MoDE

/-- Total indexing into a rational vector, modelling in-range numpy
indexing `v[i]`; out-of-range access returns a junk `0` and is never
relied upon by the verified statements. -/
def idx (l : List ℚ) (i : ℕ) : ℚ := l.getD i 0

/-- Total indexing into a real vector. -/
def idxR (l : List ℝ) (i : ℕ) : ℝ := l.getD i 0

/-- Total indexing into a rational matrix, `m[i][j]`. -/
def idx2 (m : List (List ℚ)) (i j : ℕ) : ℚ := (m.getD i []).getD j 0

/-- Total indexing into an integer matrix. -/
def idx2Z (m : List (List ℤ)) (i j : ℕ) : ℤ := (m.getD i []).getD j 0

/-- Sum of squares of one data row; `np.linalg.norm(data, axis=1)[i]`
(MoDE.py line 51) is the square root of this quantity. -/
def rowNormSq (r : List ℚ) : ℚ := (r.map (fun t => t ^ 2)).sum

/-- MoDE.py line 51: `data_norms = np.linalg.norm(data, axis=1)`. -/
noncomputable def data_norms (data : List (List ℚ)) : List ℝ :=
  data.map (fun r => Real.sqrt ((rowNormSq r : ℝ)))

/-- MoDE.py line 52: the test `0 in data_norms`.  A Euclidean norm is zero
iff the row's sum of squares is zero (lemma `zeroNormCheck_faithful`
below), which lets the test be stated decidably over the rational
inputs. -/
def zeroNormCheck (data : List (List ℚ)) : Bool :=
  data.any (fun r => decide (rowNormSq r = 0))

/-- Elementwise `np.any(m.T != m)` for an `m.length × m.length` matrix. -/
def asymCheck (m : List (List ℚ)) : Bool :=
  (List.range m.length).any fun i =>
    (List.range m.length).any fun j => decide (idx2 m j i ≠ idx2 m i j)

/-- MoDE.py line 48, second disjunct, transcribed as written: the source
tests `np.any(dm_lb.T != dm_lb.T)` — it compares the transpose of `dm_lb`
against itself (evidently a typo for `dm_lb.T != dm_lb`), so every entry
comparison is of the shape `x != x`.  (With float `NaN` entries `x != x`
holds; all values in this model are ordinary numbers, as they are for any
real distance data.) -/
def lbBuggyCheck (dm_lb : List (List ℚ)) : Bool :=
  (List.range dm_lb.length).any fun i =>
    (List.range dm_lb.length).any fun j => decide (idx2 dm_lb j i ≠ idx2 dm_lb j i)

/-- MoDE.py line 48: `np.any(dm_ub.T != dm_ub) or np.any(dm_lb.T != dm_lb.T)`. -/
def symCheckFails (dm_ub dm_lb : List (List ℚ)) : Bool :=
  asymCheck dm_ub || lbBuggyCheck dm_lb

/-- MoDE.py lines 55-58.  With `R = np.repeat(data_norms, N).reshape((N, N))`
one has `R[i][j] = norms[i]`; the source sets `data_norms_i = R.T` (so
`data_norms_i[i][j] = norms[j]`) and `data_norms_j = R` (so
`data_norms_j[i][j] = norms[i]`), and
`cm_ub = (data_norms_i ** 2 + data_norms_j ** 2 - dm_lb ** 2) / (2 * data_norms_i * data_norms_j)`.
Entry `(i, j)` is therefore as below. -/
noncomputable def cm_ub_entry (data dm_lb : List (List ℚ)) (i j : ℕ) : ℝ :=
  (idxR (data_norms data) j ^ 2 + idxR (data_norms data) i ^ 2 - (idx2 dm_lb i j : ℝ) ^ 2) /
    (2 * idxR (data_norms data) j * idxR (data_norms data) i)

/-- MoDE.py line 58: same with `dm_ub` in place of `dm_lb`. -/
noncomputable def cm_lb_entry (data dm_ub : List (List ℚ)) (i j : ℕ) : ℝ :=
  (idxR (data_norms data) j ^ 2 + idxR (data_norms data) i ^ 2 - (idx2 dm_ub i j : ℝ) ^ 2) /
    (2 * idxR (data_norms data) j * idxR (data_norms data) i)

/-- MoDE.py line 62: `dm = (dm_ub + dm_lb) / 2`. -/
def dmAvg (dm_ub dm_lb : List (List ℚ)) : List (List ℚ) :=
  List.zipWith (fun ru rl => List.zipWith (fun a b => (a + b) / 2) ru rl) dm_ub dm_lb

/-- Modelled library behavior (`sklearn.neighbors.NearestNeighbors` with
`metric="precomputed"`, connectivity output, MoDE.py lines 65-68): column
`j` is among the `k` nearest neighbors of the row iff fewer than `k`
columns are strictly nearer, where "nearer" is the lexicographic order on
(distance, column index).  sklearn leaves the order among equal distances
unspecified; the model fixes ties by column index.  None of the verified
properties depends on the tie order. -/
def knnSelected (row : List ℚ) (k : ℕ) (j : ℕ) : Bool :=
  decide (((List.range row.length).filter fun p =>
    decide (idx row p < idx row j ∨ (idx row p = idx row j ∧ p < j))).length < k)

/-- MoDE.py line 68: `A = neigh.kneighbors_graph(dm) - identity(N, format="csr")`
with `neigh = NearestNeighbors(n_neighbors=self.n_neighbor+1, metric="precomputed")`
fitted on `dm`. -/
def adjacency (n_neighbor : ℕ) (dm : List (List ℚ)) : List (List ℤ) :=
  (List.range dm.length).map fun i =>
    (List.range dm.length).map fun j =>
      (if knnSelected (dm.getD i []) (n_neighbor + 1) j then (1 : ℤ) else 0) -
        (if j = i then 1 else 0)

/-- Modelled library behavior (`scipy.sparse.find`): the nonzero positions
of a sparse matrix in row-major order, columns ascending within a row. -/
def find_nonzeros (A : List (List ℤ)) : List (ℕ × ℕ) :=
  (List.range A.length).flatMap fun i =>
    ((List.range (A.getD i []).length).filter fun j => decide (idx2Z A i j ≠ 0)).map fun j =>
      (i, j)

/-- MoDE.py line 133: `np.any((find(A)[2] != 1) & (find(A)[2] != 0))`
(`find(A)[2]` lists the values at the nonzero positions). -/
def not01Check (A : List (List ℤ)) : Bool :=
  (find_nonzeros A).any fun p => decide (idx2Z A p.1 p.2 ≠ 1 ∧ idx2Z A p.1 p.2 ≠ 0)

/-- MoDE.py line 138: `tuple(sorted(x, key=lambda y: score[y]))` for a pair
`x = (i, j)`.  Python's sort is stable, so the pair is swapped exactly when
the second component has strictly smaller score. -/
def orient (score : List ℚ) (p : ℕ × ℕ) : ℕ × ℕ :=
  if idx score p.2 < idx score p.1 then (p.2, p.1) else (p.1, p.2)

/-- MoDE.py line 138: the edge set
`set([tuple(sorted(x, key=lambda y: score[y])) for x in zip(find(A)[0], find(A)[1])])`.
A Python set iterates in an unspecified order; the model keeps a
duplicate-free list (`List.dedup`).  Every property proved about the edges
is independent of their order. -/
def edgesOf (A : List (List ℤ)) (score : List ℚ) : List (ℕ × ℕ) :=
  ((find_nonzeros A).map (orient score)).dedup

/-- MoDE.py lines 128-147, `incidence_matrix`: validation, edge-set
construction and CSR assembly.  The result is the list of score-oriented
edges; row `i` of the assembled sparse matrix is `incRow` of the `i`-th
edge.  `csr_matrix((values, (row_ind, col_ind)))` with empty index lists
(a graph with no edges) raises
`ValueError: unable to infer matrix dimensions` inside scipy; the model
returns that error. -/
def incidence_matrix (A : List (List ℤ)) (score : List ℚ) : Except String (List (ℕ × ℕ)) :=
  let m := A.length
  let n := (A.headD []).length
  if m ≠ n then Except.error "error: adjacency matrix should be a square matrix"
  else if not01Check A then Except.error "not a 0-1 matrix"
  else if score.length ≠ m then
    Except.error "error: length of the score vector should be equal to the number of data points"
  else
    let edges := edgesOf A score
    if edges.isEmpty then Except.error "unable to infer matrix dimensions"
    else Except.ok edges

/-- Row of the incidence matrix assembled at MoDE.py lines 141-147: `-1`
at column `e.1` (the low-score endpoint), `+1` at column `e.2`; CSR
assembly sums duplicate positions, so a degenerate pair `(v, v)` yields an
all-zero row. -/
def incRow (e : ℕ × ℕ) (ncols : ℕ) : List ℤ :=
  (List.range ncols).map fun v =>
    (if v = e.1 then (-1 : ℤ) else 0) + (if v = e.2 then 1 else 0)

/-- The dense form of the incidence matrix of an edge list. -/
def incMat (edges : List (ℕ × ℕ)) (ncols : ℕ) : List (List ℤ) :=
  edges.map (fun e => incRow e ncols)

/-- `np.argmin` (MoDE.py line 80): the first index attaining the minimum. -/
def argmin (l : List ℚ) : ℕ :=
  (List.range l.length).foldl (fun best j => if idx l j < idx l best then j else best) 0

/-- MoDE.py line 82: the incidence matrix with column `min_ind` removed,
`inc_mat[:, list(range(min_ind)) + list(range(min_ind+1, N))]`. -/
def reducedInc (edges : List (ℕ × ℕ)) (N min_ind : ℕ) : List (List ℤ) :=
  (incMat edges N).map fun row => row.eraseIdx min_ind

/-- MoDE.py line 72: `node_indices = inc_mat.nonzero()[1].reshape((-1, 2))`.
CSR `nonzero` lists each row's nonzero columns in ascending column order,
so row `e` contributes its two endpoints ordered by index. -/
def node_pairs (edges : List (ℕ × ℕ)) : List (ℕ × ℕ) :=
  edges.map fun e => (min e.1 e.2, max e.1 e.2)

/-- MoDE.py line 73: `c_ub = cm_ub[node_indices[:, 0], node_indices[:, 1]]`. -/
noncomputable def c_ubOf (data dm_lb : List (List ℚ)) (edges : List (ℕ × ℕ)) : List ℝ :=
  (node_pairs edges).map fun p => cm_ub_entry data dm_lb p.1 p.2

/-- MoDE.py line 74: `c_lb = cm_lb[node_indices[:, 0], node_indices[:, 1]]`. -/
noncomputable def c_lbOf (data dm_ub : List (List ℚ)) (edges : List (ℕ × ℕ)) : List ℝ :=
  (node_pairs edges).map fun p => cm_lb_entry data dm_ub p.1 p.2

/-- MoDE.py line 76: `r_ub = np.arccos(c_lb)`.  numpy's `arccos` yields
`NaN` (with a warning, not an exception) outside `[-1, 1]`; `Real.arccos`
yields its junk values `0` / `π` there.  Either way execution continues. -/
noncomputable def r_ubOf (data dm_ub : List (List ℚ)) (edges : List (ℕ × ℕ)) : List ℝ :=
  (c_lbOf data dm_ub edges).map Real.arccos

/-- MoDE.py line 77: `r_lb = np.arccos(c_ub)`. -/
noncomputable def r_lbOf (data dm_lb : List (List ℚ)) (edges : List (ℕ × ℕ)) : List ℝ :=
  (c_ubOf data dm_lb edges).map Real.arccos

/-- Inner product of an integer row with a real vector, `row · x`. -/
def dotZR (row : List ℤ) (x : List ℝ) : ℝ := (List.zipWith (fun a t => (a : ℝ) * t) row x).sum

/-- `inc_mat.dot(x)`. -/
def matVec (B : List (List ℤ)) (x : List ℝ) : List ℝ := B.map fun row => dotZR row x

/-- `inc_mat.T.dot(d)`: entry `v` is the inner product of column `v` of
`B` with `d`; `ncols` is the column count of `B` (here `N - 1`). -/
def matTvec (B : List (List ℤ)) (d : List ℝ) (ncols : ℕ) : List ℝ :=
  (List.range ncols).map fun v =>
    (List.zipWith (fun row dv => ((row.getD v 0 : ℤ) : ℝ) * dv) B d).sum

/-- MoDE.py lines 149-158, `proj_l_u`: `np.minimum(np.maximum(x, l), u)`. -/
def proj_l_u (x l u : List ℝ) : List ℝ := List.zipWith min (List.zipWith max x l) u

/-- Euclidean norm of a vector, `np.linalg.norm`. -/
noncomputable def l2norm (v : List ℝ) : ℝ := Real.sqrt ((v.map fun t => t ^ 2).sum)

/-- The residual `inc_mat.dot(x) - proj_l_u(inc_mat.dot(x), r_lb, r_ub)`
appearing at MoDE.py lines 95 and 102. -/
def residual (B : List (List ℤ)) (x rl ru : List ℝ) : List ℝ :=
  List.zipWith (fun a b => a - b) (matVec B x) (proj_l_u (matVec B x) rl ru)

/-- MoDE.py line 95:
`e = (1/np.sqrt(N-1)) * np.linalg.norm(inc_mat.T.dot(inc_mat.dot(x) - self.proj_l_u(...)))`. -/
noncomputable def gdError (B : List (List ℤ)) (x rl ru : List ℝ) (N : ℕ) : ℝ :=
  (1 / Real.sqrt ((N - 1 : ℕ) : ℝ)) * l2norm (matTvec B (residual B x rl ru) (N - 1))

/-- MoDE.py line 102: the update
`x = x - gamma * inc_mat.T.dot(inc_mat.dot(x) - self.proj_l_u(...))`. -/
noncomputable def gdStep (B : List (List ℤ)) (rl ru : List ℝ) (gamma : ℚ) (ncols : ℕ)
    (x : List ℝ) : List ℝ :=
  List.zipWith (fun a b => a - (gamma : ℝ) * b) x (matTvec B (residual B x rl ru) ncols)

/-- Diagonal of `np.dot(inc_mat.T, inc_mat)` (length `ncols`): entry `v`
is the sum of squares of column `v` of `B`. -/
def grammDiag (B : List (List ℤ)) (ncols : ℕ) : List ℤ :=
  (List.range ncols).map fun v => (B.map fun row => (row.getD v 0) ^ 2).sum

/-- `np.max` over a vector.  numpy raises on an empty input; that case is
only reachable here with `N = 1`, which the neighbor search has already
rejected, so the model returns a junk `0` there. -/
def npMaxZ (l : List ℤ) : ℤ := l.foldl max (l.headD 0)

/-- MoDE.py line 87:
`gamma = 1 / (2 * np.max((np.dot(inc_mat.T, inc_mat)).diagonal()))`,
computed on the reduced incidence matrix. -/
def gammaOf (B : List (List ℤ)) (ncols : ℕ) : ℚ :=
  1 / (2 * (npMaxZ (grammDiag B ncols) : ℚ))

/-- MoDE.py lines 90-102, the gradient-descent loop
`for cnt in range(self.max_iter)`.  Each iteration computes the error `e`,
records it (`error_progression[cnt] = e`; the accumulator `hist` holds the
recorded values newest-first and is reversed on exit), breaks when
`cnt % 1000 == 0 and e < self.tol` (truncating the history to `cnt + 1`
entries), and otherwise performs the gradient update.  The returned flag
tells whether the loop exited through the tolerance test. -/
noncomputable def gdLoop (B : List (List ℤ)) (rl ru : List ℝ) (gamma tol : ℚ)
    (N maxIter cnt : ℕ) (x hist : List ℝ) : List ℝ × List ℝ × Bool :=
  if h : maxIter ≤ cnt then (x, hist.reverse, false)
  else if cnt % 1000 = 0 ∧ gdError B x rl ru N < (tol : ℝ) then
    (x, (gdError B x rl ru N :: hist).reverse, true)
  else
    gdLoop B rl ru gamma tol N maxIter (cnt + 1) (gdStep B rl ru gamma (N - 1) x)
      (gdError B x rl ru N :: hist)
termination_by maxIter - cnt
decreasing_by omega

/-- MoDE.py lines 80-104: everything from `min_ind = np.argmin(...)` to
the end of the loop, packaged.  The initial point is `x = np.zeros(N-1)`
(line 83). -/
noncomputable def gdResult (data : List (List ℚ)) (score : List ℚ)
    (dm_ub dm_lb : List (List ℚ)) (edges : List (ℕ × ℕ))
    (maxIter : ℕ) (tol : ℚ) : List ℝ × List ℝ × Bool :=
  let N := data.length
  let min_ind := argmin score
  let B := reducedInc edges N min_ind
  gdLoop B (r_lbOf data dm_lb edges) (r_ubOf data dm_ub edges) (gammaOf B (N - 1)) tol
    N maxIter 0 (List.replicate (N - 1) 0) []

/-- MoDE.py line 106:
`x = np.concatenate((x[:min_ind], np.array([0]), x[min_ind:]), axis=0)`. -/
noncomputable def finalAngles (data : List (List ℚ)) (score : List ℚ)
    (dm_ub dm_lb : List (List ℚ)) (edges : List (ℕ × ℕ))
    (maxIter : ℕ) (tol : ℚ) : List ℝ :=
  let x := (gdResult data score dm_ub dm_lb edges maxIter tol).1
  let min_ind := argmin score
  x.take min_ind ++ [0] ++ x.drop min_ind

/-- MoDE.py lines 110-111:
`x_2d = np.concatenate((data_norms * np.cos(x), data_norms * np.sin(x)), axis=0).reshape((2, -1)).T`.
Concatenating the two length-`N` vectors, reshaping to `(2, N)` row-major
and transposing makes row `i` equal to
`(norms[i] * cos(x[i]), norms[i] * sin(x[i]))`, i.e. the zip below. -/
noncomputable def mode_embed (data : List (List ℚ)) (score : List ℚ)
    (dm_ub dm_lb : List (List ℚ)) (edges : List (ℕ × ℕ))
    (maxIter : ℕ) (tol : ℚ) : List (ℝ × ℝ) :=
  List.zipWith (fun nrm a => (nrm * Real.cos a, nrm * Real.sin a)) (data_norms data)
    (finalAngles data score dm_ub dm_lb edges maxIter tol)

/-- MoDE.py lines 28-112, `fit_transform`.  The two validation raises are
lines 46-49 and lines 52-53; the `n_neighbors` gate models sklearn's
`Expected n_neighbors <= n_samples_fit` check raised by the `kneighbors_graph`
call when `n_neighbor + 1 > N`; errors raised inside `incidence_matrix`
propagate.  (`print(gamma)` and the `verbose` progress prints are I/O side
effects with no bearing on the returned value and are not modelled.) -/
noncomputable def fit_transform (n_neighbor maxIter : ℕ) (tol : ℚ) (data : List (List ℚ))
    (score : List ℚ) (dm_ub dm_lb : List (List ℚ)) : Except String (List (ℝ × ℝ)) :=
  let N := data.length
  if symCheckFails dm_ub dm_lb then Except.error "distance matrices should be symmetric"
  else if zeroNormCheck data then Except.error "error: remove zero-norm points"
  else if N < n_neighbor + 1 then Except.error "Expected n_neighbors <= n_samples_fit"
  else
    match incidence_matrix (adjacency n_neighbor (dmAvg dm_ub dm_lb)) score with
    | Except.error msg => Except.error msg
    | Except.ok edges => Except.ok (mode_embed data score dm_ub dm_lb edges maxIter tol)

/-- Whether a call produced an embedding. -/
def isOkE (r : Except String (List (ℝ × ℝ))) : Bool :=
  match r with
  | Except.ok _ => true
  | Except.error _ => false

/-- Euclidean norm of a 2-D point. -/
noncomputable def pairNorm (p : ℝ × ℝ) : ℝ := Real.sqrt (p.1 ^ 2 + p.2 ^ 2)

/-! ### Faithfulness and basic shape lemmas -/

/-- A row's Euclidean norm vanishes iff its sum of squares does: the
decidable test `zeroNormCheck` agrees with the float test
`0 in data_norms` of MoDE.py line 52. -/
theorem zeroNormCheck_faithful (data : List (List ℚ)) :
    zeroNormCheck data = true ↔ (0 : ℝ) ∈ data_norms data := by
  simp only [zeroNormCheck, data_norms, List.any_eq_true, List.mem_map, decide_eq_true_eq]
  constructor
  · rintro ⟨r, hr, hz⟩
    exact ⟨r, hr, by simp [hz]⟩
  · rintro ⟨r, hr, hz⟩
    refine ⟨r, hr, ?_⟩
    have hnn : (0 : ℝ) ≤ (rowNormSq r : ℝ) := by
      have : (0 : ℚ) ≤ rowNormSq r := by
        unfold rowNormSq
        apply List.sum_nonneg
        intro t ht
        rcases List.mem_map.mp ht with ⟨s, _, rfl⟩
        positivity
      exact_mod_cast this
    have := Real.sqrt_eq_zero hnn
    have hq : (rowNormSq r : ℝ) = 0 := by
      rw [← this]
      exact hz
    exact_mod_cast hq

/-- The second disjunct of the symmetry check (MoDE.py line 48) compares
`dm_lb.T` with itself and therefore never fires. -/
theorem lbBuggyCheck_false (m : List (List ℚ)) : lbBuggyCheck m = false := by
  simp [lbBuggyCheck]

theorem matTvec_length (B : List (List ℤ)) (d : List ℝ) (ncols : ℕ) :
    (matTvec B d ncols).length = ncols := by
  simp [matTvec]

theorem matVec_length (B : List (List ℤ)) (x : List ℝ) :
    (matVec B x).length = B.length := by
  simp [matVec]

theorem gdStep_length (B : List (List ℤ)) (rl ru : List ℝ) (gamma : ℚ) (ncols : ℕ)
    (x : List ℝ) : (gdStep B rl ru gamma ncols x).length = min x.length ncols := by
  simp [gdStep, matTvec]

theorem adjacency_length (n_neighbor : ℕ) (dm : List (List ℚ)) :
    (adjacency n_neighbor dm).length = dm.length := by
  simp [adjacency]

theorem adjacency_head_length (n_neighbor : ℕ) (dm : List (List ℚ)) :
    ((adjacency n_neighbor dm).headD []).length = dm.length ∨ dm.length = 0 := by
  rcases e : dm.length with _ | n
  · right; rfl
  · left
    unfold adjacency
    rw [e, List.range_succ_eq_map]
    simp

theorem incidence_matrix_ok (A : List (List ℤ)) (score : List ℚ)
    (hsq : (A.headD []).length = A.length) (h01 : not01Check A = false)
    (hlen : score.length = A.length) (hne : edgesOf A score ≠ []) :
    incidence_matrix A score = Except.ok (edgesOf A score) := by
  simp [incidence_matrix, hsq, h01, hlen, List.isEmpty_iff, hne]
  simpa using hsq.symm

theorem fit_transform_ok {n_neighbor maxIter : ℕ} {tol : ℚ} {data : List (List ℚ)}
    {score : List ℚ} {dm_ub dm_lb : List (List ℚ)}
    (hsym : symCheckFails dm_ub dm_lb = false) (hz : zeroNormCheck data = false)
    (hk : ¬ data.length < n_neighbor + 1)
    (hdm : (dmAvg dm_ub dm_lb).length = data.length)
    (h01 : not01Check (adjacency n_neighbor (dmAvg dm_ub dm_lb)) = false)
    (hlen : score.length = data.length)
    (hne : edgesOf (adjacency n_neighbor (dmAvg dm_ub dm_lb)) score ≠ []) :
    fit_transform n_neighbor maxIter tol data score dm_ub dm_lb =
      Except.ok (mode_embed data score dm_ub dm_lb
        (edgesOf (adjacency n_neighbor (dmAvg dm_ub dm_lb)) score) maxIter tol) := by
  have hA : (adjacency n_neighbor (dmAvg dm_ub dm_lb)).length = data.length := by
    rw [adjacency_length, hdm]
  have hsq : ((adjacency n_neighbor (dmAvg dm_ub dm_lb)).headD []).length =
      (adjacency n_neighbor (dmAvg dm_ub dm_lb)).length := by
    rcases adjacency_head_length n_neighbor (dmAvg dm_ub dm_lb) with h | h
    · rw [h, adjacency_length]
    · exfalso
      apply hk
      have : data.length = 0 := by rw [← hdm, h]
      omega
  have hinc := incidence_matrix_ok _ _ hsq h01 (hlen.trans hA.symm) hne
  simp [fit_transform, hsym, hz, hk, hinc]

theorem foldl_best_lt (l : List ℚ) (n : ℕ) (js : List ℕ) :
    ∀ init : ℕ, init < n → (∀ j ∈ js, j < n) →
      js.foldl (fun best j => if idx l j < idx l best then j else best) init < n := by
  induction js with
  | nil => intro init h _; simpa using h
  | cons j js ih =>
    intro init h hall
    simp only [List.foldl_cons]
    apply ih
    · by_cases hj : idx l j < idx l init
      · simpa [hj] using hall j (by simp)
      · simpa [hj] using h
    · intro a ha
      exact hall a (by simp [ha])

theorem argmin_lt_length (l : List ℚ) (h : l ≠ []) : argmin l < l.length := by
  unfold argmin
  apply foldl_best_lt
  · exact List.length_pos.mpr h
  · intro j hj
    exact List.mem_range.mp hj

theorem getD_concat_lt {α : Type} (l : List α) (a d : α) (k : ℕ) (h : k < l.length) :
    (l ++ [a]).getD k d = l.getD k d := by
  induction l generalizing k with
  | nil => simp at h
  | cons b l ih =>
    cases k with
    | zero => simp
    | succ k =>
      simp only [List.cons_append, List.getD_cons_succ]
      exact ih k (by simpa using h)

theorem getD_concat_self {α : Type} (l : List α) (a d : α) :
    (l ++ [a]).getD l.length d = a := by
  induction l with
  | nil => simp
  | cons b l ih =>
    simp only [List.cons_append, List.length_cons, List.getD_cons_succ]
    exact ih

theorem getD_append_left_self {α : Type} (l l' : List α) (d : α) :
    (l ++ l').getD l.length d = l'.getD 0 d := by
  induction l with
  | nil => simp
  | cons b l ih => simpa using ih

theorem insert_zero_length (x : List ℝ) (m : ℕ) :
    (x.take m ++ [(0 : ℝ)] ++ x.drop m).length = x.length + 1 := by
  simp only [List.length_append, List.length_take, List.length_drop, List.length_cons,
    List.length_nil]
  omega

theorem insert_zero_getD (x : List ℝ) (m : ℕ) (h : m ≤ x.length) :
    (x.take m ++ [(0 : ℝ)] ++ x.drop m).getD m 0 = 0 := by
  have hl : (x.take m).length = m := by
    simp only [List.length_take]
    omega
  rw [List.append_assoc]
  have h2 := getD_append_left_self (x.take m) ([(0 : ℝ)] ++ x.drop m) 0
  rw [hl] at h2
  rw [h2]
  simp

/-! ### Unfolding and invariants of the gradient-descent loop -/

theorem gdLoop_stop {B : List (List ℤ)} {rl ru : List ℝ} {gamma tol : ℚ} {N maxIter cnt : ℕ}
    {x hist : List ℝ} (h : maxIter ≤ cnt) :
    gdLoop B rl ru gamma tol N maxIter cnt x hist = (x, hist.reverse, false) := by
  rw [gdLoop, dif_pos h]

theorem gdLoop_early {B : List (List ℤ)} {rl ru : List ℝ} {gamma tol : ℚ} {N maxIter cnt : ℕ}
    {x hist : List ℝ} (h : ¬ maxIter ≤ cnt)
    (hc : cnt % 1000 = 0 ∧ gdError B x rl ru N < (tol : ℝ)) :
    gdLoop B rl ru gamma tol N maxIter cnt x hist =
      (x, (gdError B x rl ru N :: hist).reverse, true) := by
  rw [gdLoop, dif_neg h, if_pos hc]

theorem gdLoop_next {B : List (List ℤ)} {rl ru : List ℝ} {gamma tol : ℚ} {N maxIter cnt : ℕ}
    {x hist : List ℝ} (h : ¬ maxIter ≤ cnt)
    (hc : ¬ (cnt % 1000 = 0 ∧ gdError B x rl ru N < (tol : ℝ))) :
    gdLoop B rl ru gamma tol N maxIter cnt x hist =
      gdLoop B rl ru gamma tol N maxIter (cnt + 1) (gdStep B rl ru gamma (N - 1) x)
        (gdError B x rl ru N :: hist) := by
  rw [gdLoop, dif_neg h, if_neg hc]

/-- The loop never changes the length of the angle vector. -/
theorem gdLoop_fst_length (B : List (List ℤ)) (rl ru : List ℝ) (gamma tol : ℚ)
    (N maxIter : ℕ) :
    ∀ fuel cnt x hist, maxIter - cnt = fuel → x.length = N - 1 →
      (gdLoop B rl ru gamma tol N maxIter cnt x hist).1.length = N - 1 := by
  intro fuel
  induction fuel with
  | zero =>
    intro cnt x hist hf hx
    rw [gdLoop_stop (by omega)]
    exact hx
  | succ n ih =>
    intro cnt x hist hf hx
    have h : ¬ maxIter ≤ cnt := by omega
    by_cases hc : cnt % 1000 = 0 ∧ gdError B x rl ru N < (tol : ℝ)
    · rw [gdLoop_early h hc]
      exact hx
    · rw [gdLoop_next h hc]
      refine ih (cnt + 1) _ _ (by omega) ?_
      rw [gdStep_length, hx, Nat.min_self]

/-- The loop records one error value per executed iteration, and executes
at most `maxIter` of them. -/
theorem gdLoop_hist_length (B : List (List ℤ)) (rl ru : List ℝ) (gamma tol : ℚ)
    (N maxIter : ℕ) :
    ∀ fuel cnt x hist, maxIter - cnt = fuel → hist.length = cnt → cnt ≤ maxIter →
      (gdLoop B rl ru gamma tol N maxIter cnt x hist).2.1.length ≤ maxIter := by
  intro fuel
  induction fuel with
  | zero =>
    intro cnt x hist hf hh hle
    rw [gdLoop_stop (by omega)]
    simpa [hh] using hle
  | succ n ih =>
    intro cnt x hist hf hh hle
    have h : ¬ maxIter ≤ cnt := by omega
    by_cases hc : cnt % 1000 = 0 ∧ gdError B x rl ru N < (tol : ℝ)
    · rw [gdLoop_early h hc]
      simp only [List.length_reverse, List.length_cons, hh]
      omega
    · rw [gdLoop_next h hc]
      exact ih (cnt + 1) _ _ (by omega) (by simp [hh]) (by omega)

/-- The loop reports early convergence exactly when some recorded error at
an iteration count that is a multiple of 1000 fell below the tolerance. -/
theorem gdLoop_early_iff (B : List (List ℤ)) (rl ru : List ℝ) (gamma tol : ℚ)
    (N maxIter : ℕ) :
    ∀ fuel cnt x hist, maxIter - cnt = fuel → hist.length = cnt →
      (∀ k, k < cnt → k % 1000 = 0 → (tol : ℝ) ≤ hist.reverse.getD k 0) →
      ((gdLoop B rl ru gamma tol N maxIter cnt x hist).2.2 = true ↔
        ∃ k, k < (gdLoop B rl ru gamma tol N maxIter cnt x hist).2.1.length ∧
          k % 1000 = 0 ∧
          (gdLoop B rl ru gamma tol N maxIter cnt x hist).2.1.getD k 0 < (tol : ℝ)) := by
  intro fuel
  induction fuel with
  | zero =>
    intro cnt x hist hf hh hinv
    rw [gdLoop_stop (by omega)]
    simp only [Bool.false_eq_true, false_iff, not_exists, List.length_reverse, hh]
    intro k hk
    exact absurd (hinv k hk.1 hk.2.1) (not_le.mpr hk.2.2)
  | succ n ih =>
    intro cnt x hist hf hh hinv
    have h : ¬ maxIter ≤ cnt := by omega
    by_cases hc : cnt % 1000 = 0 ∧ gdError B x rl ru N < (tol : ℝ)
    · rw [gdLoop_early h hc]
      simp only [true_iff]
      refine ⟨cnt, ?_, hc.1, ?_⟩
      · simp [hh]
      · have hrl : (hist.reverse).length = cnt := by simp [hh]
        rw [List.reverse_cons, ← hrl, getD_concat_self]
        exact hc.2
    · rw [gdLoop_next h hc]
      refine ih (cnt + 1) _ _ (by omega) (by simp [hh]) ?_
      intro k hk hmod
      rw [List.reverse_cons]
      have hrl : (hist.reverse).length = cnt := by simp [hh]
      rcases Nat.lt_or_ge k cnt with hlt | hge
      · rw [getD_concat_lt _ _ _ _ (by omega)]
        exact hinv k hlt hmod
      · have hkc : k = cnt := by omega
        subst hkc
        rw [← hrl, getD_concat_self]
        by_contra hlt
        exact hc ⟨hmod, not_le.mp hlt⟩

/-- With the tolerance already met at the initial point, the loop exits at
iteration 0 with a single recorded error and an unchanged angle vector. -/
theorem gdLoop_immediate {B : List (List ℤ)} {rl ru : List ℝ} {gamma tol : ℚ}
    {N maxIter : ℕ} {x : List ℝ} (h1 : 1 ≤ maxIter)
    (he : gdError B x rl ru N < (tol : ℝ)) :
    gdLoop B rl ru gamma tol N maxIter 0 x [] = (x, [gdError B x rl ru N], true) := by
  rw [gdLoop_early (by omega) ⟨by norm_num, he⟩]
  simp

/-! ### Remaining small helpers -/

theorem getD_zipWith {α β γ : Type} (f : α → β → γ) (l : List α) (l' : List β)
    (da : α) (db : β) (dc : γ) :
    ∀ i, i < l.length → i < l'.length →
      (List.zipWith f l l').getD i dc = f (l.getD i da) (l'.getD i db) := by
  induction l generalizing l' with
  | nil =>
    intro i h
    simp at h
  | cons a l ih =>
    cases l' with
    | nil =>
      intro i _ h
      simp at h
    | cons b l' =>
      intro i h1 h2
      cases i with
      | zero => simp
      | succ i =>
        simp only [List.zipWith_cons_cons, List.getD_cons_succ]
        exact ih l' i (by simpa using h1) (by simpa using h2)

theorem data_norms_length (data : List (List ℚ)) :
    (data_norms data).length = data.length := by
  simp [data_norms]

theorem data_norms_nonneg (data : List (List ℚ)) (i : ℕ) :
    0 ≤ idxR (data_norms data) i := by
  unfold idxR
  rcases Nat.lt_or_ge i (data_norms data).length with h | h
  · rw [List.getD_eq_getElem _ _ h]
    unfold data_norms
    rw [List.getElem_map]
    exact Real.sqrt_nonneg _
  · rw [List.getD_eq_default _ _ h]

theorem pairNorm_embed (n a : ℝ) (hn : 0 ≤ n) :
    pairNorm (n * Real.cos a, n * Real.sin a) = n := by
  unfold pairNorm
  have h1 : (n * Real.cos a) ^ 2 + (n * Real.sin a) ^ 2 =
      n ^ 2 * (Real.cos a ^ 2 + Real.sin a ^ 2) := by ring
  rw [h1, Real.cos_sq_add_sin_sq, mul_one, Real.sqrt_sq hn]

theorem proj_l_u_self (x l : List ℝ) (h : x.length = l.length) :
    proj_l_u x l l = l := by
  unfold proj_l_u
  induction x generalizing l with
  | nil =>
    cases l with
    | nil => rfl
    | cons b l => simp at h
  | cons a x ih =>
    cases l with
    | nil => simp at h
    | cons b l =>
      simp only [List.zipWith_cons_cons, List.cons.injEq]
      refine ⟨min_eq_right (le_max_right a b), ih l (by simpa using h)⟩

theorem incidence_matrix_ok_inv (A : List (List ℤ)) (score : List ℚ) (es : List (ℕ × ℕ))
    (h : incidence_matrix A score = Except.ok es) :
    es = edgesOf A score ∧ edgesOf A score ≠ [] := by
  simp only [incidence_matrix] at h
  split at h
  · cases h
  split at h
  · cases h
  split at h
  · cases h
  split at h
  · cases h
  next hne =>
    cases h
    exact ⟨rfl, by simpa [List.isEmpty_iff] using hne⟩

/-! ### Claim C8 -/

/-- Claim C8: for inputs with strictly positive point norms, the
correlation bounds computed at MoDE.py lines 55-58 satisfy
`cm_ub[i][j] = (norm_i² + norm_j² − dm_lb[i][j]²) / (2·norm_i·norm_j)` and
`cm_lb[i][j] = (norm_i² + norm_j² − dm_ub[i][j]²) / (2·norm_i·norm_j)` for
every pair `(i, j)`: the lower distance bound feeds the upper correlation
bound and vice versa. -/
theorem c8_correlation_bounds (data dm_ub dm_lb : List (List ℚ)) (i j : ℕ)
    (_hni : 0 < idxR (data_norms data) i) (_hnj : 0 < idxR (data_norms data) j) :
    cm_ub_entry data dm_lb i j =
      (idxR (data_norms data) i ^ 2 + idxR (data_norms data) j ^ 2 -
          (idx2 dm_lb i j : ℝ) ^ 2) /
        (2 * idxR (data_norms data) i * idxR (data_norms data) j) ∧
    cm_lb_entry data dm_ub i j =
      (idxR (data_norms data) i ^ 2 + idxR (data_norms data) j ^ 2 -
          (idx2 dm_ub i j : ℝ) ^ 2) /
        (2 * idxR (data_norms data) i * idxR (data_norms data) j) := by
  unfold cm_ub_entry cm_lb_entry
  constructor <;> ring_nf

/-- Witness for C8 at the one-point input `data = [[3, 4]]` (norm 5),
`dm_ub = [[2]]`, `dm_lb = [[1]]`. -/
theorem c8_witness :
    0 < idxR (data_norms [[(3 : ℚ), 4]]) 0 ∧
    (cm_ub_entry [[(3 : ℚ), 4]] [[(1 : ℚ)]] 0 0 =
      (idxR (data_norms [[(3 : ℚ), 4]]) 0 ^ 2 + idxR (data_norms [[(3 : ℚ), 4]]) 0 ^ 2 -
          (idx2 [[(1 : ℚ)]] 0 0 : ℝ) ^ 2) /
        (2 * idxR (data_norms [[(3 : ℚ), 4]]) 0 * idxR (data_norms [[(3 : ℚ), 4]]) 0) ∧
    cm_lb_entry [[(3 : ℚ), 4]] [[(2 : ℚ)]] 0 0 =
      (idxR (data_norms [[(3 : ℚ), 4]]) 0 ^ 2 + idxR (data_norms [[(3 : ℚ), 4]]) 0 ^ 2 -
          (idx2 [[(2 : ℚ)]] 0 0 : ℝ) ^ 2) /
        (2 * idxR (data_norms [[(3 : ℚ), 4]]) 0 * idxR (data_norms [[(3 : ℚ), 4]]) 0)) := by
  have hc : ((rowNormSq [(3 : ℚ), 4] : ℚ) : ℝ) = 25 := by norm_num [rowNormSq]
  have hn : 0 < idxR (data_norms [[(3 : ℚ), 4]]) 0 := by
    simp only [idxR, data_norms, List.map_cons, List.map_nil, List.getD_cons_zero, hc]
    exact Real.sqrt_pos.mpr (by norm_num)
  exact ⟨hn, c8_correlation_bounds [[(3 : ℚ), 4]] [[(2 : ℚ)]] [[(1 : ℚ)]] 0 0 hn hn⟩

/-! ### Claim C9 -/

/-- Claim C9: when `dm_ub` equals `dm_lb` elementwise, the per-edge
angular bounds of MoDE.py lines 76-77 coincide (`r_ub = r_lb`), and the
box projection `proj_l_u` applied inside the solver becomes the constant
function returning `r_lb` on each edge. -/
theorem c9_exact_distance_degeneracy (data dm_ub dm_lb : List (List ℚ))
    (edges : List (ℕ × ℕ)) (h : dm_ub = dm_lb) :
    r_ubOf data dm_ub edges = r_lbOf data dm_lb edges ∧
    ∀ x : List ℝ, x.length = edges.length →
      proj_l_u x (r_lbOf data dm_lb edges) (r_ubOf data dm_ub edges) =
        r_lbOf data dm_lb edges := by
  subst h
  have hequ : r_ubOf data dm_ub edges = r_lbOf data dm_ub edges := by
    simp [r_ubOf, r_lbOf, c_ubOf, c_lbOf, cm_ub_entry, cm_lb_entry]
  refine ⟨hequ, ?_⟩
  intro x hx
  rw [hequ]
  apply proj_l_u_self
  rw [hx]
  simp [r_lbOf, c_ubOf, node_pairs]

/-! ### Shape of the solver output and the reconstruction -/

theorem gdResult_fst_length (data : List (List ℚ)) (score : List ℚ)
    (dm_ub dm_lb : List (List ℚ)) (edges : List (ℕ × ℕ)) (maxIter : ℕ) (tol : ℚ) :
    (gdResult data score dm_ub dm_lb edges maxIter tol).1.length = data.length - 1 := by
  simp only [gdResult]
  exact gdLoop_fst_length _ _ _ _ _ _ _ maxIter 0 _ [] (by omega) (by simp)

theorem finalAngles_len (data : List (List ℚ)) (score : List ℚ)
    (dm_ub dm_lb : List (List ℚ)) (edges : List (ℕ × ℕ)) (maxIter : ℕ) (tol : ℚ)
    (hN : 1 ≤ data.length) :
    (finalAngles data score dm_ub dm_lb edges maxIter tol).length = data.length := by
  simp only [finalAngles]
  rw [insert_zero_length, gdResult_fst_length]
  omega

theorem mode_embed_getD (data : List (List ℚ)) (score : List ℚ)
    (dm_ub dm_lb : List (List ℚ)) (edges : List (ℕ × ℕ)) (maxIter : ℕ) (tol : ℚ)
    (i : ℕ) (hi : i < data.length) (hN : 1 ≤ data.length) :
    (mode_embed data score dm_ub dm_lb edges maxIter tol).getD i (0, 0) =
      (idxR (data_norms data) i *
        Real.cos (idxR (finalAngles data score dm_ub dm_lb edges maxIter tol) i),
       idxR (data_norms data) i *
        Real.sin (idxR (finalAngles data score dm_ub dm_lb edges maxIter tol) i)) := by
  unfold mode_embed
  rw [getD_zipWith _ _ _ 0 0 (0, 0) i (by rw [data_norms_length]; exact hi)
    (by rw [finalAngles_len _ _ _ _ _ _ _ hN]; exact hi)]
  rfl

theorem mode_embed_length (data : List (List ℚ)) (score : List ℚ)
    (dm_ub dm_lb : List (List ℚ)) (edges : List (ℕ × ℕ)) (maxIter : ℕ) (tol : ℚ)
    (hN : 1 ≤ data.length) :
    (mode_embed data score dm_ub dm_lb edges maxIter tol).length = data.length := by
  unfold mode_embed
  rw [List.length_zipWith, data_norms_length, finalAngles_len _ _ _ _ _ _ _ hN, Nat.min_self]

theorem insert_zero_replicate (n m : ℕ) (hm : m ≤ n) :
    (List.replicate n (0 : ℝ)).take m ++ [(0 : ℝ)] ++ (List.replicate n (0 : ℝ)).drop m =
      List.replicate (n + 1) (0 : ℝ) := by
  rw [List.take_replicate, List.drop_replicate,
    show [(0 : ℝ)] = List.replicate 1 (0 : ℝ) from rfl, ← List.replicate_add,
    ← List.replicate_add]
  congr 1
  omega

/-! ### Concrete-input evaluation helpers shared by witnesses -/

theorem range_two : List.range 2 = [0, 1] := rfl

/-- The 2-point neighbor graph for an all-zero averaged distance matrix,
with `n_neighbor = 1`. -/
theorem adjacency_zeros_eval :
    adjacency 1 (dmAvg [[(0 : ℚ), 0], [0, 0]] [[(0 : ℚ), 0], [0, 0]]) = [[0, 1], [1, 0]] := by
  norm_num [adjacency, dmAvg, knnSelected, idx, range_two, List.filter]

/-- The 2-point neighbor graph for the asymmetric-`dm_lb` input of C1. -/
theorem adjacency_c1_eval :
    adjacency 1 (dmAvg [[(0 : ℚ), 2], [2, 0]] [[(0 : ℚ), 1], [2, 0]]) = [[0, 1], [1, 0]] := by
  norm_num [adjacency, dmAvg, knnSelected, idx, range_two, List.filter]

/-- With `n_neighbor = 0` each point's single nearest neighbor is itself,
so subtracting the identity leaves a zero adjacency matrix. -/
theorem adjacency_c7_eval :
    adjacency 0 (dmAvg [[(0 : ℚ), 2], [2, 0]] [[(0 : ℚ), 2], [2, 0]]) = [[0, 0], [0, 0]] := by
  norm_num [adjacency, dmAvg, knnSelected, idx, range_two, List.filter]
  decide

theorem zeroNormCheck_3434 : zeroNormCheck [[(3 : ℚ), 4], [3, 4]] = false := by
  norm_num [zeroNormCheck, rowNormSq]

theorem zeroNormCheck_3468 : zeroNormCheck [[(3 : ℚ), 4], [6, 8]] = false := by
  norm_num [zeroNormCheck, rowNormSq]

theorem zeroNormCheck_34912 : zeroNormCheck [[(3 : ℚ), 4], [9, 12]] = false := by
  norm_num [zeroNormCheck, rowNormSq]

/-- The out-of-domain upper correlation bound of the C6 input: norms 5 and
15 with both distance bounds 0 give `(15² + 5²) / (2·15·5) = 5/3 > 1`. -/
theorem cm_ub_entry_c6_eval :
    cm_ub_entry [[(3 : ℚ), 4], [9, 12]] [[(0 : ℚ), 0], [0, 0]] 0 1 = 5 / 3 := by
  norm_num [cm_ub_entry, idxR, data_norms, idx2, rowNormSq]
  rw [show (225 : ℝ) = 15 ^ 2 by norm_num, show (25 : ℝ) = 5 ^ 2 by norm_num,
    Real.sqrt_sq (by norm_num : (0 : ℝ) ≤ 15), Real.sqrt_sq (by norm_num : (0 : ℝ) ≤ 5)]
  norm_num

/-! ### Claim C2 -/

/-- Claim C2: for every valid input with `N` points, `fit_transform`
returns an `N`-row embedding whose row `i` equals
`(norm_i · cos(angle_i), norm_i · sin(angle_i))`, where `norm_i` is the
Euclidean norm of data row `i`; consequently the Euclidean norm of
embedding row `i` equals `norm_i` — exactly, in the real-number model (the
claim's "within floating-point tolerance"). -/
theorem c2_embedding_shape_and_norms (n_neighbor maxIter : ℕ) (tol : ℚ)
    (data : List (List ℚ)) (score : List ℚ) (dm_ub dm_lb : List (List ℚ))
    (hsym : symCheckFails dm_ub dm_lb = false) (hz : zeroNormCheck data = false)
    (hk : ¬ data.length < n_neighbor + 1)
    (hdm : (dmAvg dm_ub dm_lb).length = data.length)
    (h01 : not01Check (adjacency n_neighbor (dmAvg dm_ub dm_lb)) = false)
    (hlen : score.length = data.length)
    (hne : edgesOf (adjacency n_neighbor (dmAvg dm_ub dm_lb)) score ≠ []) :
    ∃ emb, fit_transform n_neighbor maxIter tol data score dm_ub dm_lb = Except.ok emb ∧
      emb.length = data.length ∧
      ∀ i, i < data.length →
        emb.getD i (0, 0) =
          (idxR (data_norms data) i *
            Real.cos (idxR (finalAngles data score dm_ub dm_lb
              (edgesOf (adjacency n_neighbor (dmAvg dm_ub dm_lb)) score) maxIter tol) i),
           idxR (data_norms data) i *
            Real.sin (idxR (finalAngles data score dm_ub dm_lb
              (edgesOf (adjacency n_neighbor (dmAvg dm_ub dm_lb)) score) maxIter tol) i)) ∧
        pairNorm (emb.getD i (0, 0)) = idxR (data_norms data) i := by
  have hN : 1 ≤ data.length := by omega
  refine ⟨_, fit_transform_ok hsym hz hk hdm h01 hlen hne,
    mode_embed_length _ _ _ _ _ _ _ hN, ?_⟩
  intro i hi
  rw [mode_embed_getD _ _ _ _ _ _ _ i hi hN]
  exact ⟨rfl, pairNorm_embed _ _ (data_norms_nonneg data i)⟩

/-- Witness for C2 at the 2-point input `data = [[3,4],[3,4]]`,
`score = [0,1]`, both distance matrices zero, `n_neighbor = 1`,
`max_iter = 1`, `tol = 1`. -/
theorem c2_witness :
    ∃ emb, fit_transform 1 1 1 [[(3 : ℚ), 4], [3, 4]] [0, 1]
        [[(0 : ℚ), 0], [0, 0]] [[(0 : ℚ), 0], [0, 0]] = Except.ok emb ∧
      emb.length = 2 ∧
      ∀ i, i < 2 →
        emb.getD i (0, 0) =
          (idxR (data_norms [[(3 : ℚ), 4], [3, 4]]) i *
            Real.cos (idxR (finalAngles [[(3 : ℚ), 4], [3, 4]] [0, 1]
              [[(0 : ℚ), 0], [0, 0]] [[(0 : ℚ), 0], [0, 0]]
              (edgesOf (adjacency 1 (dmAvg [[(0 : ℚ), 0], [0, 0]] [[(0 : ℚ), 0], [0, 0]]))
                [0, 1]) 1 1) i),
           idxR (data_norms [[(3 : ℚ), 4], [3, 4]]) i *
            Real.sin (idxR (finalAngles [[(3 : ℚ), 4], [3, 4]] [0, 1]
              [[(0 : ℚ), 0], [0, 0]] [[(0 : ℚ), 0], [0, 0]]
              (edgesOf (adjacency 1 (dmAvg [[(0 : ℚ), 0], [0, 0]] [[(0 : ℚ), 0], [0, 0]]))
                [0, 1]) 1 1) i)) ∧
        pairNorm (emb.getD i (0, 0)) = idxR (data_norms [[(3 : ℚ), 4], [3, 4]]) i :=
  c2_embedding_shape_and_norms 1 1 1 [[(3 : ℚ), 4], [3, 4]] [0, 1]
    [[(0 : ℚ), 0], [0, 0]] [[(0 : ℚ), 0], [0, 0]] (by decide) zeroNormCheck_3434 (by decide)
    (by simp [dmAvg]) (by rw [adjacency_zeros_eval]; decide) rfl
    (by rw [adjacency_zeros_eval]; decide)

/-! ### Claim C3 -/

/-- Claim C3: for every valid input, the angle assigned to the
minimum-score point (`np.argmin(score)`, the first index attaining the
minimum) is exactly `0` in the final angle vector — that point's column is
removed before the solver and a literal `0` is reinserted at its index
(MoDE.py lines 80-83 and 106) — so its embedding row is exactly
`(norm, 0)`. -/
theorem c3_gauge_fixing (n_neighbor maxIter : ℕ) (tol : ℚ)
    (data : List (List ℚ)) (score : List ℚ) (dm_ub dm_lb : List (List ℚ))
    (hsym : symCheckFails dm_ub dm_lb = false) (hz : zeroNormCheck data = false)
    (hk : ¬ data.length < n_neighbor + 1)
    (hdm : (dmAvg dm_ub dm_lb).length = data.length)
    (h01 : not01Check (adjacency n_neighbor (dmAvg dm_ub dm_lb)) = false)
    (hlen : score.length = data.length)
    (hne : edgesOf (adjacency n_neighbor (dmAvg dm_ub dm_lb)) score ≠ []) :
    ∃ emb, fit_transform n_neighbor maxIter tol data score dm_ub dm_lb = Except.ok emb ∧
      idxR (finalAngles data score dm_ub dm_lb
        (edgesOf (adjacency n_neighbor (dmAvg dm_ub dm_lb)) score) maxIter tol)
        (argmin score) = 0 ∧
      emb.getD (argmin score) (0, 0) =
        (idxR (data_norms data) (argmin score), 0) := by
  have hN : 1 ≤ data.length := by omega
  have hsc : score ≠ [] := by
    intro h
    subst h
    simp at hlen
    omega
  have hmin : argmin score < data.length := by
    rw [← hlen]
    exact argmin_lt_length score hsc
  have hang0 : idxR (finalAngles data score dm_ub dm_lb
      (edgesOf (adjacency n_neighbor (dmAvg dm_ub dm_lb)) score) maxIter tol)
      (argmin score) = 0 := by
    simp only [finalAngles, idxR]
    apply insert_zero_getD
    rw [gdResult_fst_length]
    omega
  refine ⟨_, fit_transform_ok hsym hz hk hdm h01 hlen hne, hang0, ?_⟩
  rw [mode_embed_getD _ _ _ _ _ _ _ _ hmin hN, hang0, Real.cos_zero, Real.sin_zero,
    mul_one, mul_zero]

/-- Witness for C3 at the same 2-point input as C2. -/
theorem c3_witness :
    ∃ emb, fit_transform 1 1 1 [[(3 : ℚ), 4], [3, 4]] [0, 1]
        [[(0 : ℚ), 0], [0, 0]] [[(0 : ℚ), 0], [0, 0]] = Except.ok emb ∧
      idxR (finalAngles [[(3 : ℚ), 4], [3, 4]] [0, 1] [[(0 : ℚ), 0], [0, 0]]
        [[(0 : ℚ), 0], [0, 0]]
        (edgesOf (adjacency 1 (dmAvg [[(0 : ℚ), 0], [0, 0]] [[(0 : ℚ), 0], [0, 0]])) [0, 1])
        1 1) (argmin [0, 1]) = 0 ∧
      emb.getD (argmin [0, 1]) (0, 0) =
        (idxR (data_norms [[(3 : ℚ), 4], [3, 4]]) (argmin [0, 1]), 0) :=
  c3_gauge_fixing 1 1 1 [[(3 : ℚ), 4], [3, 4]] [0, 1]
    [[(0 : ℚ), 0], [0, 0]] [[(0 : ℚ), 0], [0, 0]] (by decide) zeroNormCheck_3434 (by decide)
    (by simp [dmAvg]) (by rw [adjacency_zeros_eval]; decide) rfl
    (by rw [adjacency_zeros_eval]; decide)

/-! ### Claim C5 -/

/-- Claim C5: the gradient-descent loop executes at most `max_iter`
iterations (one recorded error per executed iteration); it stops before
exhausting `max_iter` exactly when, at an iteration count that is a
multiple of 1000, the recorded normalized error
`e = ‖Bᵀ(Bx − proj(Bx))‖/√(N−1)` fell below `tol`; and when `max_iter` is
exhausted without convergence the call still returns an `N`-row embedding
without raising. -/
theorem c5_loop_termination (n_neighbor maxIter : ℕ) (tol : ℚ)
    (data : List (List ℚ)) (score : List ℚ) (dm_ub dm_lb : List (List ℚ))
    (hsym : symCheckFails dm_ub dm_lb = false) (hz : zeroNormCheck data = false)
    (hk : ¬ data.length < n_neighbor + 1)
    (hdm : (dmAvg dm_ub dm_lb).length = data.length)
    (h01 : not01Check (adjacency n_neighbor (dmAvg dm_ub dm_lb)) = false)
    (hlen : score.length = data.length)
    (hne : edgesOf (adjacency n_neighbor (dmAvg dm_ub dm_lb)) score ≠ []) :
    (gdResult data score dm_ub dm_lb
      (edgesOf (adjacency n_neighbor (dmAvg dm_ub dm_lb)) score) maxIter tol).2.1.length ≤
        maxIter ∧
    ((gdResult data score dm_ub dm_lb
        (edgesOf (adjacency n_neighbor (dmAvg dm_ub dm_lb)) score) maxIter tol).2.2 = true ↔
      ∃ k, k < (gdResult data score dm_ub dm_lb
          (edgesOf (adjacency n_neighbor (dmAvg dm_ub dm_lb)) score) maxIter tol).2.1.length ∧
        k % 1000 = 0 ∧
        (gdResult data score dm_ub dm_lb
          (edgesOf (adjacency n_neighbor (dmAvg dm_ub dm_lb)) score) maxIter
            tol).2.1.getD k 0 < (tol : ℝ)) ∧
    ∃ emb, fit_transform n_neighbor maxIter tol data score dm_ub dm_lb = Except.ok emb ∧
      emb.length = data.length := by
  have hN : 1 ≤ data.length := by omega
  refine ⟨?_, ?_, _, fit_transform_ok hsym hz hk hdm h01 hlen hne,
    mode_embed_length _ _ _ _ _ _ _ hN⟩
  · simp only [gdResult]
    exact gdLoop_hist_length _ _ _ _ _ _ _ maxIter 0 _ [] (by omega) rfl (by omega)
  · simp only [gdResult]
    exact gdLoop_early_iff _ _ _ _ _ _ _ maxIter 0 _ [] (by omega) rfl
      (fun k hk _ => absurd hk (Nat.not_lt_zero k))

/-- Witness for C5 at the 2-point input with `max_iter = 1` (the spec's
deliberately small iteration cap). -/
theorem c5_witness :
    (gdResult [[(3 : ℚ), 4], [3, 4]] [0, 1] [[(0 : ℚ), 0], [0, 0]] [[(0 : ℚ), 0], [0, 0]]
      (edgesOf (adjacency 1 (dmAvg [[(0 : ℚ), 0], [0, 0]] [[(0 : ℚ), 0], [0, 0]])) [0, 1])
      1 1).2.1.length ≤ 1 ∧
    ((gdResult [[(3 : ℚ), 4], [3, 4]] [0, 1] [[(0 : ℚ), 0], [0, 0]] [[(0 : ℚ), 0], [0, 0]]
        (edgesOf (adjacency 1 (dmAvg [[(0 : ℚ), 0], [0, 0]] [[(0 : ℚ), 0], [0, 0]])) [0, 1])
        1 1).2.2 = true ↔
      ∃ k, k < (gdResult [[(3 : ℚ), 4], [3, 4]] [0, 1] [[(0 : ℚ), 0], [0, 0]]
          [[(0 : ℚ), 0], [0, 0]]
          (edgesOf (adjacency 1 (dmAvg [[(0 : ℚ), 0], [0, 0]] [[(0 : ℚ), 0], [0, 0]])) [0, 1])
          1 1).2.1.length ∧
        k % 1000 = 0 ∧
        (gdResult [[(3 : ℚ), 4], [3, 4]] [0, 1] [[(0 : ℚ), 0], [0, 0]] [[(0 : ℚ), 0], [0, 0]]
          (edgesOf (adjacency 1 (dmAvg [[(0 : ℚ), 0], [0, 0]] [[(0 : ℚ), 0], [0, 0]])) [0, 1])
          1 1).2.1.getD k 0 < ((1 : ℚ) : ℝ)) ∧
    ∃ emb, fit_transform 1 1 1 [[(3 : ℚ), 4], [3, 4]] [0, 1]
        [[(0 : ℚ), 0], [0, 0]] [[(0 : ℚ), 0], [0, 0]] = Except.ok emb ∧
      emb.length = 2 :=
  c5_loop_termination 1 1 1 [[(3 : ℚ), 4], [3, 4]] [0, 1]
    [[(0 : ℚ), 0], [0, 0]] [[(0 : ℚ), 0], [0, 0]] (by decide) zeroNormCheck_3434 (by decide)
    (by simp [dmAvg]) (by rw [adjacency_zeros_eval]; decide) rfl
    (by rw [adjacency_zeros_eval]; decide)

/-! ### Claim C10 -/

/-- Claim C10 (implicit): the convergence test runs at iteration 0, before
any gradient update: on a valid input whose normalized error at the
all-zero initial angle vector is already below `tol` (since `B·0 = 0` that
error is `‖Bᵀ(0 − proj(0))‖/√(N−1) = ‖Bᵀ proj_[r_lb,r_ub](0)‖/√(N−1)`),
the loop exits immediately with the early-convergence flag set, an error
history of length 1, every returned angle equal to 0, and every point
embedded at `(norm_i, 0)` on the positive x-axis — a collinear embedding
with no optimization performed. -/
theorem c10_immediate_convergence (n_neighbor maxIter : ℕ) (tol : ℚ)
    (data : List (List ℚ)) (score : List ℚ) (dm_ub dm_lb : List (List ℚ))
    (hsym : symCheckFails dm_ub dm_lb = false) (hz : zeroNormCheck data = false)
    (hk : ¬ data.length < n_neighbor + 1)
    (hdm : (dmAvg dm_ub dm_lb).length = data.length)
    (h01 : not01Check (adjacency n_neighbor (dmAvg dm_ub dm_lb)) = false)
    (hlen : score.length = data.length)
    (hne : edgesOf (adjacency n_neighbor (dmAvg dm_ub dm_lb)) score ≠ [])
    (hmi : 1 ≤ maxIter)
    (he : gdError
        (reducedInc (edgesOf (adjacency n_neighbor (dmAvg dm_ub dm_lb)) score)
          data.length (argmin score))
        (List.replicate (data.length - 1) 0)
        (r_lbOf data dm_lb (edgesOf (adjacency n_neighbor (dmAvg dm_ub dm_lb)) score))
        (r_ubOf data dm_ub (edgesOf (adjacency n_neighbor (dmAvg dm_ub dm_lb)) score))
        data.length < (tol : ℝ)) :
    ∃ emb, fit_transform n_neighbor maxIter tol data score dm_ub dm_lb = Except.ok emb ∧
      (gdResult data score dm_ub dm_lb
        (edgesOf (adjacency n_neighbor (dmAvg dm_ub dm_lb)) score) maxIter tol).2.2 = true ∧
      (gdResult data score dm_ub dm_lb
        (edgesOf (adjacency n_neighbor (dmAvg dm_ub dm_lb)) score) maxIter
          tol).2.1.length = 1 ∧
      finalAngles data score dm_ub dm_lb
        (edgesOf (adjacency n_neighbor (dmAvg dm_ub dm_lb)) score) maxIter tol =
        List.replicate data.length 0 ∧
      ∀ i, i < data.length → emb.getD i (0, 0) = (idxR (data_norms data) i, 0) := by
  have hN : 1 ≤ data.length := by omega
  have hsc : score ≠ [] := by
    intro h
    subst h
    simp at hlen
    omega
  have hmin : argmin score < data.length := by
    rw [← hlen]
    exact argmin_lt_length score hsc
  have hloop : gdResult data score dm_ub dm_lb
      (edgesOf (adjacency n_neighbor (dmAvg dm_ub dm_lb)) score) maxIter tol =
      (List.replicate (data.length - 1) 0,
        [gdError
          (reducedInc (edgesOf (adjacency n_neighbor (dmAvg dm_ub dm_lb)) score)
            data.length (argmin score))
          (List.replicate (data.length - 1) 0)
          (r_lbOf data dm_lb (edgesOf (adjacency n_neighbor (dmAvg dm_ub dm_lb)) score))
          (r_ubOf data dm_ub (edgesOf (adjacency n_neighbor (dmAvg dm_ub dm_lb)) score))
          data.length], true) := by
    simp only [gdResult]
    exact gdLoop_immediate hmi he
  have hang : finalAngles data score dm_ub dm_lb
      (edgesOf (adjacency n_neighbor (dmAvg dm_ub dm_lb)) score) maxIter tol =
      List.replicate data.length 0 := by
    simp only [finalAngles, hloop]
    rw [insert_zero_replicate _ _ (by omega)]
    congr 1
    omega
  refine ⟨_, fit_transform_ok hsym hz hk hdm h01 hlen hne, by rw [hloop], by rw [hloop]; rfl,
    hang, ?_⟩
  intro i hi
  rw [mode_embed_getD _ _ _ _ _ _ _ i hi hN, hang]
  have hzero : idxR (List.replicate data.length (0 : ℝ)) i = 0 := by
    unfold idxR
    rw [List.getD_eq_getElem _ _ (by simpa using hi)]
    simp
  rw [hzero, Real.cos_zero, Real.sin_zero, mul_one, mul_zero]

/-- The upper correlation bound of the C10 witness input: equal norms 5
and distance bounds 0 give `(5² + 5²)/(2·5·5) = 1`. -/
theorem cm_ub_entry_w_eval :
    cm_ub_entry [[(3 : ℚ), 4], [3, 4]] [[(0 : ℚ), 0], [0, 0]] 0 1 = 1 := by
  norm_num [cm_ub_entry, idxR, data_norms, idx2, rowNormSq]
  rw [show (25 : ℝ) = 5 ^ 2 by norm_num, Real.sqrt_sq (by norm_num : (0 : ℝ) ≤ 5)]
  norm_num

/-- Witness for C10 at the 2-point input with coincident points (both
angular bounds are `arccos 1 = 0`, so the initial error vanishes). -/
theorem c10_witness :
    ∃ emb, fit_transform 1 1 1 [[(3 : ℚ), 4], [3, 4]] [0, 1]
        [[(0 : ℚ), 0], [0, 0]] [[(0 : ℚ), 0], [0, 0]] = Except.ok emb ∧
      (gdResult [[(3 : ℚ), 4], [3, 4]] [0, 1] [[(0 : ℚ), 0], [0, 0]] [[(0 : ℚ), 0], [0, 0]]
        (edgesOf (adjacency 1 (dmAvg [[(0 : ℚ), 0], [0, 0]] [[(0 : ℚ), 0], [0, 0]])) [0, 1])
        1 1).2.2 = true ∧
      (gdResult [[(3 : ℚ), 4], [3, 4]] [0, 1] [[(0 : ℚ), 0], [0, 0]] [[(0 : ℚ), 0], [0, 0]]
        (edgesOf (adjacency 1 (dmAvg [[(0 : ℚ), 0], [0, 0]] [[(0 : ℚ), 0], [0, 0]])) [0, 1])
        1 1).2.1.length = 1 ∧
      finalAngles [[(3 : ℚ), 4], [3, 4]] [0, 1] [[(0 : ℚ), 0], [0, 0]] [[(0 : ℚ), 0], [0, 0]]
        (edgesOf (adjacency 1 (dmAvg [[(0 : ℚ), 0], [0, 0]] [[(0 : ℚ), 0], [0, 0]])) [0, 1])
        1 1 = List.replicate 2 0 ∧
      ∀ i, i < 2 →
        emb.getD i (0, 0) = (idxR (data_norms [[(3 : ℚ), 4], [3, 4]]) i, 0) := by
  have hE : edgesOf (adjacency 1 (dmAvg [[(0 : ℚ), 0], [0, 0]] [[(0 : ℚ), 0], [0, 0]]))
      [0, 1] = [(0, 1)] := by
    rw [adjacency_zeros_eval]; decide
  have hcm2 : cm_lb_entry [[(3 : ℚ), 4], [3, 4]] [[(0 : ℚ), 0], [0, 0]] 0 1 = 1 :=
    cm_ub_entry_w_eval
  have hrl : r_lbOf [[(3 : ℚ), 4], [3, 4]] [[(0 : ℚ), 0], [0, 0]] [(0, 1)] = [0] := by
    simp [r_lbOf, c_ubOf, node_pairs, cm_ub_entry_w_eval, Real.arccos_one]
  have hru : r_ubOf [[(3 : ℚ), 4], [3, 4]] [[(0 : ℚ), 0], [0, 0]] [(0, 1)] = [0] := by
    simp [r_ubOf, c_lbOf, node_pairs, hcm2, Real.arccos_one]
  have hred : reducedInc [(0, 1)] 2 (argmin [(0 : ℚ), 1]) = [[1]] := by decide
  have he : gdError [[(1 : ℤ)]] (List.replicate 1 (0 : ℝ)) [0] [0] 2 < ((1 : ℚ) : ℝ) := by
    simp [gdError, l2norm, matTvec, residual, matVec, proj_l_u, dotZR]
  apply c10_immediate_convergence 1 1 1 [[(3 : ℚ), 4], [3, 4]] [0, 1]
    [[(0 : ℚ), 0], [0, 0]] [[(0 : ℚ), 0], [0, 0]] (by decide) zeroNormCheck_3434 (by decide)
    (by simp [dmAvg]) (by rw [adjacency_zeros_eval]; decide) rfl
    (by rw [adjacency_zeros_eval]; decide) (by norm_num)
  rw [hE]
  show gdError (reducedInc [(0, 1)] 2 (argmin [0, 1])) (List.replicate 1 (0 : ℝ))
      (r_lbOf [[(3 : ℚ), 4], [3, 4]] [[(0 : ℚ), 0], [0, 0]] [(0, 1)])
      (r_ubOf [[(3 : ℚ), 4], [3, 4]] [[(0 : ℚ), 0], [0, 0]] [(0, 1)]) 2 < ((1 : ℚ) : ℝ)
  rw [hred, hrl, hru]
  exact he

/-! ### Claim C1 -/

/-- Claim C1 (code bug): MoDE.py line 48 tests
`np.any(dm_ub.T != dm_ub) or np.any(dm_lb.T != dm_lb.T)` — the second
disjunct compares `dm_lb.T` with itself, so an asymmetric `dm_lb` paired
with a symmetric `dm_ub` is NOT rejected: on such an input `fit_transform`
passes the symmetry check and returns an embedding instead of raising
"distance matrices should be symmetric", contradicting the claim. -/
theorem c1_asymmetric_dm_lb_accepted :
    asymCheck [[(0 : ℚ), 1], [2, 0]] = true ∧
    symCheckFails [[(0 : ℚ), 2], [2, 0]] [[(0 : ℚ), 1], [2, 0]] = false ∧
    isOkE (fit_transform 1 1 1 [[(3 : ℚ), 4], [6, 8]] [0, 1]
      [[(0 : ℚ), 2], [2, 0]] [[(0 : ℚ), 1], [2, 0]]) = true := by
  refine ⟨by decide, by decide, ?_⟩
  rw [fit_transform_ok (by decide) zeroNormCheck_3468 (by decide) (by simp [dmAvg])
    (by rw [adjacency_c1_eval]; decide) rfl (by rw [adjacency_c1_eval]; decide)]
  rfl

/-! ### Claim C4 counterexample -/

/-- Claim C4 counterexample: on the 2-node adjacency `[[0,1],[1,0]]` with
tied scores `[0, 0]`, the stable sort leaves `(0,1)` and `(1,0)` as they
come, the set-dedup keeps both, and the incidence matrix gets two rows for
the single unordered edge {0,1} — refuting "exactly one row per
deduplicated unordered edge" and the claimed index tie-break. -/
theorem c4_counterexample :
    incidence_matrix [[(0 : ℤ), 1], [1, 0]] [(0 : ℚ), 0] = Except.ok [(0, 1), (1, 0)] ∧
    ((edgesOf [[(0 : ℤ), 1], [1, 0]] [(0 : ℚ), 0]).filter fun e =>
      decide (min e.1 e.2 = 0 ∧ max e.1 e.2 = 1)).length = 2 := by
  exact ⟨rfl, by decide⟩

/-! ### Structure of incidence-matrix rows (for Claim C4) -/

theorem incRow_getD (lo hi n v : ℕ) (hv : v < n) :
    (incRow (lo, hi) n).getD v 0 =
      (if v = lo then (-1 : ℤ) else 0) + (if v = hi then 1 else 0) := by
  unfold incRow
  rw [List.getD_eq_getElem _ _ (by simpa using hv)]
  simp

theorem incRow_sum (lo hi n : ℕ) (hlo : lo < n) (hhi : hi < n) (_hne : lo ≠ hi) :
    (incRow (lo, hi) n).sum = 0 := by
  unfold incRow
  show (∑ v in Finset.range n, ((if v = lo then (-1 : ℤ) else 0) + (if v = hi then 1 else 0)))
    = 0
  rw [Finset.sum_add_distrib,
    Finset.sum_ite_eq' (Finset.range n) lo fun _ => (-1 : ℤ),
    Finset.sum_ite_eq' (Finset.range n) hi fun _ => (1 : ℤ)]
  simp [Finset.mem_range, hlo, hhi]

/-- Counting over `List.range` of a predicate that holds at exactly one
index below `n`. -/
theorem countP_range_unique (p : ℕ → Bool) (n a : ℕ) (ha : a < n)
    (hp : ∀ v, v < n → (p v = true ↔ v = a)) :
    (List.range n).countP p = 1 := by
  induction n with
  | zero => omega
  | succ m ih =>
    rw [List.range_succ, List.countP_append]
    rcases Nat.lt_or_ge a m with h | h
    · rw [ih h (fun v hv => hp v (by omega))]
      have hm : p m = false := by
        by_contra hc
        have : m = a := (hp m (by omega)).mp (by revert hc; cases p m <;> simp)
        omega
      simp [hm]
    · have ham : a = m := by omega
      subst ham
      have h0 : (List.range a).countP p = 0 := by
        rw [List.countP_eq_zero]
        intro v hv
        intro hc
        have : v = a := (hp v (by have := List.mem_range.mp hv; omega)).mp hc
        have := List.mem_range.mp hv
        omega
      rw [h0]
      simp [(hp a (by omega)).mpr rfl]

/-- Counting over `List.range` of a predicate that holds at exactly two
distinct indices below `n`. -/
theorem countP_range_pair (p : ℕ → Bool) (n lo hi : ℕ) (hlo : lo < n) (hhi : hi < n)
    (hne : lo ≠ hi) (hp : ∀ v, v < n → (p v = true ↔ (v = lo ∨ v = hi))) :
    (List.range n).countP p = 2 := by
  induction n with
  | zero => omega
  | succ m ih =>
    rw [List.range_succ, List.countP_append]
    by_cases hlm : lo = m
    · subst hlm
      have hhm : hi < lo := by omega
      have h1 : (List.range lo).countP p = 1 := by
        apply countP_range_unique p lo hi hhm
        intro v hv
        rw [hp v (by omega)]
        constructor
        · rintro (rfl | rfl)
          · omega
          · rfl
        · intro h
          right
          exact h
      rw [h1]
      simp [(hp lo (by omega)).mpr (Or.inl rfl)]
    · by_cases hhm : hi = m
      · subst hhm
        have hlm' : lo < hi := by omega
        have h1 : (List.range hi).countP p = 1 := by
          apply countP_range_unique p hi lo hlm'
          intro v hv
          rw [hp v (by omega)]
          constructor
          · rintro (rfl | rfl)
            · rfl
            · omega
          · intro h
            left
            exact h
        rw [h1]
        simp [(hp hi (by omega)).mpr (Or.inr rfl)]
      · have h2 : (List.range m).countP p = 2 :=
          ih (by omega) (by omega) (fun v hv => hp v (by omega))
        rw [h2]
        have hm : p m = false := by
          by_contra hc
          have : m = lo ∨ m = hi := (hp m (by omega)).mp (by revert hc; cases p m <;> simp)
          omega
        simp [hm]

theorem incRow_count_neg_one (lo hi n : ℕ) (hlo : lo < n) (hne : lo ≠ hi) :
    (incRow (lo, hi) n).count (-1) = 1 := by
  unfold incRow
  rw [List.count, List.countP_map]
  apply countP_range_unique _ n lo hlo
  intro v hv
  by_cases h1 : v = lo <;> by_cases h2 : v = hi <;>
    simp_all [Function.comp]

theorem incRow_count_one (lo hi n : ℕ) (hhi : hi < n) (hne : lo ≠ hi) :
    (incRow (lo, hi) n).count 1 = 1 := by
  unfold incRow
  rw [List.count, List.countP_map]
  apply countP_range_unique _ n hi hhi
  intro v hv
  by_cases h1 : v = lo <;> by_cases h2 : v = hi <;>
    simp_all [Function.comp]

theorem incRow_nonzeros (lo hi n : ℕ) (hlo : lo < n) (hhi : hi < n) (hne : lo ≠ hi) :
    ((incRow (lo, hi) n).filter fun t => decide (t ≠ 0)).length = 2 := by
  unfold incRow
  rw [List.filter_map, List.length_map, ← List.countP_eq_length_filter]
  apply countP_range_pair _ n lo hi hlo hhi hne
  intro v hv
  by_cases h1 : v = lo <;> by_cases h2 : v = hi <;>
    simp_all [Function.comp]

/-! ### Membership and orientation lemmas (for Claim C4) -/

theorem mem_find_nonzeros (A : List (List ℤ)) (p : ℕ × ℕ) :
    p ∈ find_nonzeros A ↔
      p.1 < A.length ∧ p.2 < (A.getD p.1 []).length ∧ idx2Z A p.1 p.2 ≠ 0 := by
  cases p with
  | mk i j =>
    simp only [find_nonzeros, List.mem_flatMap, List.mem_map, List.mem_filter,
      List.mem_range, decide_eq_true_eq, Prod.mk.injEq]
    constructor
    · rintro ⟨i', hi', j', ⟨⟨hj', hnz⟩, rfl, rfl⟩⟩
      exact ⟨hi', hj', hnz⟩
    · rintro ⟨hi, hj, hnz⟩
      exact ⟨i, hi, j, ⟨⟨hj, hnz⟩, rfl, rfl⟩⟩

theorem mem_edgesOf (A : List (List ℤ)) (score : List ℚ) (e : ℕ × ℕ) :
    e ∈ edgesOf A score ↔ ∃ p ∈ find_nonzeros A, orient score p = e := by
  simp [edgesOf, List.mem_dedup, List.mem_map]

theorem orient_cases (score : List ℚ) (p : ℕ × ℕ) :
    orient score p = (p.1, p.2) ∨ orient score p = (p.2, p.1) := by
  unfold orient
  by_cases hc : idx score p.2 < idx score p.1 <;> simp [hc]

theorem orient_lt (score : List ℚ) (p : ℕ × ℕ) (h : idx score p.1 ≠ idx score p.2) :
    idx score (orient score p).1 < idx score (orient score p).2 := by
  unfold orient
  by_cases hc : idx score p.2 < idx score p.1 <;> simp [hc]
  exact lt_of_le_of_ne (not_lt.mp hc) h

theorem pairwise_ne_idx (score : List ℚ) (hinj : List.Pairwise (· ≠ ·) score)
    (i j : ℕ) (hi : i < score.length) (hj : j < score.length) (hij : i ≠ j) :
    idx score i ≠ idx score j := by
  have h := List.pairwise_iff_getElem.mp hinj
  unfold idx
  rw [List.getD_eq_getElem _ _ hi, List.getD_eq_getElem _ _ hj]
  rcases Nat.lt_or_ge i j with hlt | hge
  · exact h i j hi hj hlt
  · exact (h j i hj hi (by omega)).symm

/-! ### Claim C4 (amended) -/

/-- Claim C4, amended: for a square 0/1 adjacency matrix with zero
diagonal, a score vector of matching length with pairwise-distinct values
and at least one nonzero entry, `incidence_matrix` succeeds and returns
exactly one row per deduplicated unordered edge: every returned edge
`(e.1, e.2)` has distinct in-range endpoints with
`score[e.1] < score[e.2]` strictly, its row carries `-1` at column `e.1`,
`+1` at column `e.2` and `0` elsewhere (so it sums to 0, has one `-1`, one
`+1` and exactly two nonzero entries); every nonzero `(i, j)` of `A` is
covered by its score-oriented edge; and no two returned edges share the
same unordered endpoint pair.  (The unamended claim fails under score
ties: the source sorts each pair by score with a stable sort and no index
tie-break, so both orientations of one undirected edge can survive the
set-dedup — see the counterexample.) -/
theorem c4_incidence_amended (A : List (List ℤ)) (score : List ℚ)
    (hrect : ∀ r ∈ A, r.length = A.length)
    (h01 : not01Check A = false)
    (hdiag : ∀ i, i < A.length → idx2Z A i i = 0)
    (hlen : score.length = A.length)
    (hinj : List.Pairwise (· ≠ ·) score)
    (hne : edgesOf A score ≠ []) :
    incidence_matrix A score = Except.ok (edgesOf A score) ∧
    (∀ e ∈ edgesOf A score,
      e.1 ≠ e.2 ∧ e.1 < A.length ∧ e.2 < A.length ∧
      idx score e.1 < idx score e.2 ∧
      (∀ v, v < A.length → (incRow e A.length).getD v 0 =
        if v = e.1 then -1 else if v = e.2 then 1 else 0) ∧
      (incRow e A.length).sum = 0 ∧
      (incRow e A.length).count (-1) = 1 ∧ (incRow e A.length).count 1 = 1 ∧
      ((incRow e A.length).filter fun t => decide (t ≠ 0)).length = 2) ∧
    (∀ p ∈ find_nonzeros A, orient score p ∈ edgesOf A score) ∧
    List.Pairwise (fun e f => ¬(e.1 = f.1 ∧ e.2 = f.2) ∧ ¬(e.1 = f.2 ∧ e.2 = f.1))
      (edgesOf A score) := by
  have hA_ne : A ≠ [] := by
    intro h
    subst h
    exact hne rfl
  have hsq : (A.headD []).length = A.length := by
    cases A with
    | nil => exact absurd rfl hA_ne
    | cons r rest => exact hrect r (by simp)
  -- endpoint facts for every nonzero position
  have hbounds : ∀ p ∈ find_nonzeros A, p.1 < A.length ∧ p.2 < A.length ∧ p.1 ≠ p.2 := by
    intro p hp
    rcases (mem_find_nonzeros A p).mp hp with ⟨h1, h2, h3⟩
    have hrow : (A.getD p.1 []).length = A.length := by
      apply hrect
      rw [List.getD_eq_getElem _ _ h1]
      exact List.getElem_mem h1
    refine ⟨h1, by rw [← hrow]; exact h2, ?_⟩
    intro hcontra
    apply h3
    rw [hcontra]
    exact hdiag p.2 (by rw [← hcontra]; exact h1)
  -- the strict score ordering of every returned edge
  have hedge : ∀ e ∈ edgesOf A score,
      e.1 ≠ e.2 ∧ e.1 < A.length ∧ e.2 < A.length ∧ idx score e.1 < idx score e.2 := by
    intro e he
    rcases (mem_edgesOf A score e).mp he with ⟨p, hp, rfl⟩
    rcases hbounds p hp with ⟨h1, h2, h3⟩
    have hne_idx : idx score p.1 ≠ idx score p.2 :=
      pairwise_ne_idx score hinj p.1 p.2 (by omega) (by omega) h3
    have hlt := orient_lt score p hne_idx
    rcases orient_cases score p with hca | hca <;> rw [hca] at hlt ⊢
    · exact ⟨h3, h1, h2, hlt⟩
    · exact ⟨Ne.symm h3, h2, h1, hlt⟩
  refine ⟨incidence_matrix_ok A score hsq h01 hlen hne, ?_, ?_, ?_⟩
  · intro e he
    rcases e with ⟨lo, hi⟩
    rcases hedge (lo, hi) he with ⟨h1, h2, h3, h4⟩
    have h1' : lo ≠ hi := h1
    have hdg : ∀ v, v < A.length → (incRow (lo, hi) A.length).getD v 0 =
        if v = lo then -1 else if v = hi then 1 else 0 := by
      intro v hv
      rw [incRow_getD lo hi A.length v hv]
      by_cases hv1 : v = lo <;> by_cases hv2 : v = hi
      · exact absurd (by omega : lo = hi) h1'
      · simp [hv1, hv2, h1', Ne.symm h1']
      · simp [hv1, hv2, h1', Ne.symm h1']
      · simp [hv1, hv2, h1', Ne.symm h1']
    exact ⟨h1', h2, h3, h4, hdg, incRow_sum lo hi A.length h2 h3 h1',
      incRow_count_neg_one lo hi A.length h2 h1', incRow_count_one lo hi A.length h3 h1',
      incRow_nonzeros lo hi A.length h2 h3 h1'⟩
  · intro p hp
    exact (mem_edgesOf A score (orient score p)).mpr ⟨p, hp, rfl⟩
  · have hnodup : (edgesOf A score).Nodup := List.nodup_dedup _
    refine List.Pairwise.imp_of_mem ?_ hnodup
    intro e f he hf hneq
    constructor
    · rintro ⟨h1, h2⟩
      exact hneq (Prod.ext h1 h2)
    · rintro ⟨h1, h2⟩
      have hel := (hedge e he).2.2.2
      have hfl := (hedge f hf).2.2.2
      rw [h1, h2] at hel
      exact absurd hfl (not_lt.mpr (le_of_lt hel))

/-- Witness for C4 (amended) on the 2-node path with distinct scores. -/
theorem c4_witness :
    List.Pairwise (· ≠ ·) [(0 : ℚ), 1] ∧
    incidence_matrix [[(0 : ℤ), 1], [1, 0]] [(0 : ℚ), 1] =
      Except.ok (edgesOf [[(0 : ℤ), 1], [1, 0]] [(0 : ℚ), 1]) :=
  ⟨by decide,
    (c4_incidence_amended [[(0 : ℤ), 1], [1, 0]] [(0 : ℚ), 1] (by decide) (by decide)
      (by decide) rfl (by decide) (by decide)).1⟩

/-! ### Claim C6 -/

/-- Claim C6 counterexample: an input whose derived correlation bound on
the single graph edge is `5/3 ∉ [-1, 1]` is not rejected: `fit_transform`
raises no domain error (and performs no logged clamp — the code has no
clamp at all) and returns an embedding. -/
theorem c6_counterexample :
    (1 : ℝ) < (c_ubOf [[(3 : ℚ), 4], [9, 12]] [[(0 : ℚ), 0], [0, 0]]
      (edgesOf (adjacency 1 (dmAvg [[(0 : ℚ), 0], [0, 0]] [[(0 : ℚ), 0], [0, 0]])) [0, 1])).getD
        0 0 ∧
    isOkE (fit_transform 1 1 1 [[(3 : ℚ), 4], [9, 12]] [0, 1]
      [[(0 : ℚ), 0], [0, 0]] [[(0 : ℚ), 0], [0, 0]]) = true := by
  have hE : edgesOf (adjacency 1 (dmAvg [[(0 : ℚ), 0], [0, 0]] [[(0 : ℚ), 0], [0, 0]])) [0, 1] =
      [(0, 1)] := by
    rw [adjacency_zeros_eval]; decide
  constructor
  · rw [hE]
    have : (c_ubOf [[(3 : ℚ), 4], [9, 12]] [[(0 : ℚ), 0], [0, 0]] [(0, 1)]).getD 0 0 = 5 / 3 := by
      simp [c_ubOf, node_pairs, cm_ub_entry_c6_eval]
    rw [this]
    norm_num
  · rw [fit_transform_ok (by decide) zeroNormCheck_34912 (by decide) (by simp [dmAvg])
      (by rw [adjacency_zeros_eval]; decide) rfl (by rw [adjacency_zeros_eval]; decide)]
    rfl

/-- Claim C6 amended: `fit_transform` performs no domain validation or
clamping of the arccos arguments: even when some edge's upper correlation
bound lies outside [-1, 1], the call raises no error and returns an
embedding (numpy's `arccos` silently yields `NaN` there; the real-valued
model yields `Real.arccos`'s junk value). -/
theorem c6_no_domain_check (n_neighbor maxIter : ℕ) (tol : ℚ) (data : List (List ℚ))
    (score : List ℚ) (dm_ub dm_lb : List (List ℚ))
    (hsym : symCheckFails dm_ub dm_lb = false) (hz : zeroNormCheck data = false)
    (hk : ¬ data.length < n_neighbor + 1)
    (hdm : (dmAvg dm_ub dm_lb).length = data.length)
    (h01 : not01Check (adjacency n_neighbor (dmAvg dm_ub dm_lb)) = false)
    (hlen : score.length = data.length)
    (hne : edgesOf (adjacency n_neighbor (dmAvg dm_ub dm_lb)) score ≠ [])
    (_hout : ∃ c ∈ c_ubOf data dm_lb (edgesOf (adjacency n_neighbor (dmAvg dm_ub dm_lb)) score),
      c < -1 ∨ 1 < c) :
    isOkE (fit_transform n_neighbor maxIter tol data score dm_ub dm_lb) = true := by
  rw [fit_transform_ok hsym hz hk hdm h01 hlen hne]
  rfl

/-- Witness for C6: the out-of-domain input of the counterexample
discharges every hypothesis of the amended theorem. -/
theorem c6_witness :
    isOkE (fit_transform 1 1 1 [[(3 : ℚ), 4], [9, 12]] [0, 1]
      [[(0 : ℚ), 0], [0, 0]] [[(0 : ℚ), 0], [0, 0]]) = true := by
  have hE : edgesOf (adjacency 1 (dmAvg [[(0 : ℚ), 0], [0, 0]] [[(0 : ℚ), 0], [0, 0]])) [0, 1] =
      [(0, 1)] := by
    rw [adjacency_zeros_eval]; decide
  refine c6_no_domain_check 1 1 1 _ _ _ _ (by decide) zeroNormCheck_34912 (by decide)
    (by simp [dmAvg]) (by rw [adjacency_zeros_eval]; decide) rfl
    (by rw [adjacency_zeros_eval]; decide) ?_
  refine ⟨cm_ub_entry [[(3 : ℚ), 4], [9, 12]] [[(0 : ℚ), 0], [0, 0]] 0 1, ?_, ?_⟩
  · rw [hE]
    simp [c_ubOf, node_pairs]
  · right
    rw [cm_ub_entry_c6_eval]
    norm_num

/-! ### Claim C7 -/

/-- Claim C7 counterexample: two inputs whose neighbor graph would have
zero edges.  With `N = 1` the call fails inside the neighbor search
(sklearn's `n_neighbors`-vs-`n_samples` check), and with `N = 2`,
`n_neighbor = 0` it fails in the sparse assembly of the empty edge list —
in both cases a generic library error, not an explicit
degenerate-graph/configuration error, and in neither case is the step-size
division `gamma = 1/(2·max_diagonal)` ever reached. -/
theorem c7_counterexample :
    fit_transform 1 100 1 [[(3 : ℚ), 4]] [0] [[(0 : ℚ)]] [[(0 : ℚ)]] =
      Except.error "Expected n_neighbors <= n_samples_fit" ∧
    fit_transform 0 100 1 [[(3 : ℚ), 4], [6, 8]] [0, 1]
        [[(0 : ℚ), 2], [2, 0]] [[(0 : ℚ), 2], [2, 0]] =
      Except.error "unable to infer matrix dimensions" := by
  constructor
  · have h2 : zeroNormCheck [[(3 : ℚ), 4]] = false := by norm_num [zeroNormCheck, rowNormSq]
    simp [fit_transform, h2, show symCheckFails [[(0 : ℚ)]] [[(0 : ℚ)]] = false from by decide]
  · have h3 : not01Check [[(0 : ℤ), 0], [0, 0]] = false := by decide
    have h4 : edgesOf [[(0 : ℤ), 0], [0, 0]] [(0 : ℚ), 1] = [] := by decide
    simp [fit_transform, zeroNormCheck_3468, adjacency_c7_eval, incidence_matrix, h3, h4,
      show symCheckFails [[(0 : ℚ), 2], [2, 0]] [[(0 : ℚ), 2], [2, 0]] = false from by decide]

/-- Claim C7 amended: an input whose neighbor graph has no edges never
reaches the step-size computation: every execution path ends in an error
(the neighbor-search rejection, a validation error, or the sparse-assembly
failure on the empty edge list), so no NaN/Inf embedding is ever returned
— but the source contains no explicit degenerate-graph check and raises no
dedicated error for this case. -/
theorem c7_zero_edges_no_embedding (n_neighbor maxIter : ℕ) (tol : ℚ)
    (data : List (List ℚ)) (score : List ℚ) (dm_ub dm_lb : List (List ℚ))
    (hE : edgesOf (adjacency n_neighbor (dmAvg dm_ub dm_lb)) score = []) :
    isOkE (fit_transform n_neighbor maxIter tol data score dm_ub dm_lb) = false := by
  cases hinc : incidence_matrix (adjacency n_neighbor (dmAvg dm_ub dm_lb)) score with
  | error msg =>
    simp only [fit_transform, hinc]
    split
    · rfl
    split
    · rfl
    split
    · rfl
    rfl
  | ok es => exact absurd hE (incidence_matrix_ok_inv _ _ _ hinc).2

/-- Witness for C7 at the zero-edge input with `N = 2`, `n_neighbor = 0`. -/
theorem c7_witness :
    edgesOf (adjacency 0 (dmAvg [[(0 : ℚ), 2], [2, 0]] [[(0 : ℚ), 2], [2, 0]])) [0, 1] = [] ∧
    isOkE (fit_transform 0 100 1 [[(3 : ℚ), 4], [6, 8]] [0, 1]
      [[(0 : ℚ), 2], [2, 0]] [[(0 : ℚ), 2], [2, 0]]) = false := by
  have hE : edgesOf (adjacency 0 (dmAvg [[(0 : ℚ), 2], [2, 0]] [[(0 : ℚ), 2], [2, 0]])) [0, 1] =
      [] := by
    rw [adjacency_c7_eval]; decide
  exact ⟨hE, c7_zero_edges_no_embedding 0 100 1 _ _ _ _ hE⟩

/-- Witness for C9: a concrete coincident pair of distance matrices and a
one-edge list. -/
theorem c9_witness :
    r_ubOf [[(3 : ℚ), 4]] [[(1 : ℚ)]] [(0, 1)] = r_lbOf [[(3 : ℚ), 4]] [[(1 : ℚ)]] [(0, 1)] ∧
    ∀ x : List ℝ, x.length = ([((0 : ℕ), (1 : ℕ))] : List (ℕ × ℕ)).length →
      proj_l_u x (r_lbOf [[(3 : ℚ), 4]] [[(1 : ℚ)]] [(0, 1)])
          (r_ubOf [[(3 : ℚ), 4]] [[(1 : ℚ)]] [(0, 1)]) =
        r_lbOf [[(3 : ℚ), 4]] [[(1 : ℚ)]] [(0, 1)] :=
  c9_exact_distance_degeneracy [[(3 : ℚ), 4]] [[(1 : ℚ)]] [[(1 : ℚ)]] [(0, 1)] rfl

end MoDE
